import Mathlib

/-!
Shallow embedding of the COT visualization tool's formula pipeline
(`src/app.py`), price cache (`src/fetch_prices.py`) and the chart/price
panel composition, together with theorems settling the frozen claims.

Conventions of the embedding:
* formula text is modelled as `List Char`; `String` appears only at the
  edges of statements (string literals are unpacked with `String.data`);
* the Python regular-expression machinery used by the source
  (`re.sub(r'\b' + re.escape(label) + r'\b', repl, s, flags=IGNORECASE)`,
  `re.findall(r'\b[A-Za-z_][A-Za-z0-9_]*\b', s)`,
  `re.sub(r'\s*([+\-*/])\s*', r'\1', s)`) is modelled directly by
  recursive scanners implementing the documented semantics of those
  patterns on ASCII input (a word character is `[A-Za-z0-9_]`, and the
  zero-width assertion matches between a word and a non-word position,
  string edges counting as non-word);
* numeric cell values follow IEEE-754 double special-value semantics
  (NaN / +inf / -inf propagation, signed infinite quotients for division
  by zero) with exact rationals in place of rounded finite doubles.
-/

/-- Word characters in the sense of the regex assertion used by
`convert_short_names_to_technical` and of the identifier pattern used by
`evaluate_formula` (`[A-Za-z0-9_]`, ASCII input). -/
def isWordChar (c : Char) : Bool := c.isAlphanum || c = '_'

/-- Case-insensitive (ASCII) test that the second list starts with the
first, modelling a `re.escape`d literal pattern under `re.IGNORECASE`. -/
def ciStarts : List Char → List Char → Bool
  | [], _ => true
  | _ :: _, [] => false
  | a :: as, b :: bs => (a.toLower == b.toLower) && ciStarts as bs

/-- Wordness of the first character of the remaining input, with the end
of the string counting as a non-word position. -/
def headWordness : List Char → Bool
  | [] => false
  | c :: _ => isWordChar c

/-- Left-to-right scanner for one `re.sub` pass with the pattern
`\b<label>\b` (label escaped, `IGNORECASE`): at each position the literal
label must match case-insensitively and both zero-width boundary
assertions must hold; matches are non-overlapping and scanning resumes
after the replaced text.  `prevW` records the wordness of the character
just before the current position (`false` at the start of the string),
which is all the boundary assertion consults. -/
def subWordGo (l0 : Char) (lt : List Char) (repl : List Char) : Nat → Bool → List Char → List Char
  | 0, _, s => s
  | _ + 1, _, [] => []
  | fuel + 1, prevW, c :: rest =>
    if ciStarts (l0 :: lt) (c :: rest)
        && (prevW != isWordChar l0)
        && (isWordChar ((lt.getLast?).getD l0) != headWordness (rest.drop lt.length)) then
      repl ++ subWordGo l0 lt repl fuel (isWordChar ((lt.getLast?).getD l0)) (rest.drop lt.length)
    else
      c :: subWordGo l0 lt repl fuel (isWordChar c) rest

/-- One whole-word case-insensitive substitution pass, i.e.
`re.sub(r'\b' + re.escape(lbl) + r'\b', repl, s, flags=re.IGNORECASE)`.
The scanner consumes at least one input character per step, so fuel
`s.length + 1` always suffices (the fuel is a structural-recursion
device, not part of the modelled semantics).  Registered short labels
are never empty; an empty label is returned unchanged. -/
def subWordCI (lbl : List Char) (repl : List Char) (s : List Char) : List Char :=
  match lbl with
  | [] => s
  | l0 :: lt => subWordGo l0 lt repl (s.length + 1) false s

/-- Stable insertion step for sorting alias pairs by label length
descending (equal lengths keep their original relative order, as Python's
stable `sorted(..., reverse=True)` does). -/
def insertLenDesc (p : String × String) : List (String × String) → List (String × String)
  | [] => [p]
  | q :: qs => if q.1.length ≤ p.1.length then p :: q :: qs else q :: insertLenDesc p qs

/-- Alias pairs sorted by short-label length, longest first, stably:
`sorted(map.items(), key=lambda x: len(x[0]), reverse=True)`. -/
def sortByLenDesc (m : List (String × String)) : List (String × String) :=
  m.foldr insertLenDesc []

/-- Model of `convert_short_names_to_technical` (src/app.py lines
297-313): sort the (short name, technical name) pairs longest-label
first, then for each pair substitute case-insensitive whole-word
occurrences of the short name by the technical name. -/
def convert_short_names_to_technical (formula : List Char) (m : List (String × String)) : List Char :=
  (sortByLenDesc m).foldl (fun acc p => subWordCI p.1.data p.2.data acc) formula

/-- Whitespace in the sense of Python's `str.strip` and the regex class
backslash-s (ASCII input). -/
def isPySpace (c : Char) : Bool :=
  c = ' ' || c = '\t' || c = '\n' || c = '\r' || c = '\x0b' || c = '\x0c'

/-- Python `str.strip()`: drop leading and trailing whitespace. -/
def pyStrip (s : List Char) : List Char :=
  ((s.dropWhile isPySpace).reverse.dropWhile isPySpace).reverse

/-- The four binary-operator characters of the normalization regex. -/
def isOpChar (c : Char) : Bool := c = '+' || c = '-' || c = '*' || c = '/'

/-- Scanner for `re.sub(r'\s*([+\-*/])\s*', r'\1', s)` (src/app.py line
347): a match is a maximal run of whitespace that lands on an operator
character, the operator, and the following whitespace; the match is
replaced by the operator alone and scanning resumes after it.  Each step
consumes at least one character, so fuel `s.length + 1` suffices. -/
def normOps : Nat → List Char → List Char
  | 0, s => s
  | _ + 1, [] => []
  | fuel + 1, c :: rest =>
    if isOpChar c then c :: normOps fuel (rest.dropWhile isPySpace)
    else if isPySpace c then
      match (c :: rest).dropWhile isPySpace with
      | op :: rest2 =>
        if isOpChar op then op :: normOps fuel (rest2.dropWhile isPySpace)
        else c :: normOps fuel rest
      | [] => c :: normOps fuel rest
    else c :: normOps fuel rest

/-- Whitespace normalization around binary operators with adequate fuel. -/
def normOpsRun (s : List Char) : List Char := normOps (s.length + 1) s

/-- Cell and series values: IEEE-754 double special values with exact
rationals in place of finite doubles.  `df.eval` arithmetic over numeric
columns follows these semantics (NaN propagates; a zero divisor gives a
signed infinity for a nonzero dividend and NaN for a zero dividend). -/
inductive PVal
  | finite (q : ℚ)
  | nan
  | pinf
  | ninf
deriving DecidableEq

/-- IEEE-style negation. -/
def pNeg : PVal → PVal
  | .finite q => .finite (-q)
  | .nan => .nan
  | .pinf => .ninf
  | .ninf => .pinf

/-- IEEE-style addition. -/
def pAdd : PVal → PVal → PVal
  | .nan, _ => .nan
  | _, .nan => .nan
  | .pinf, .ninf => .nan
  | .ninf, .pinf => .nan
  | .pinf, _ => .pinf
  | _, .pinf => .pinf
  | .ninf, _ => .ninf
  | _, .ninf => .ninf
  | .finite a, .finite b => .finite (a + b)

/-- IEEE-style subtraction, `a - b = a + (-b)` exactly. -/
def pSub (a b : PVal) : PVal := pAdd a (pNeg b)

/-- IEEE-style multiplication. -/
def pMul : PVal → PVal → PVal
  | .nan, _ => .nan
  | _, .nan => .nan
  | .finite a, .finite b => .finite (a * b)
  | .finite a, .pinf => if a = 0 then .nan else if 0 < a then .pinf else .ninf
  | .finite a, .ninf => if a = 0 then .nan else if 0 < a then .ninf else .pinf
  | .pinf, .finite b => if b = 0 then .nan else if 0 < b then .pinf else .ninf
  | .ninf, .finite b => if b = 0 then .nan else if 0 < b then .ninf else .pinf
  | .pinf, .pinf => .pinf
  | .pinf, .ninf => .ninf
  | .ninf, .pinf => .ninf
  | .ninf, .ninf => .pinf

/-- IEEE-style division; the data model has no signed zero, so a zero
divisor behaves as IEEE positive zero. -/
def pDiv : PVal → PVal → PVal
  | .nan, _ => .nan
  | _, .nan => .nan
  | .finite a, .finite b =>
    if b = 0 then (if a = 0 then .nan else if 0 < a then .pinf else .ninf)
    else .finite (a / b)
  | .finite _, .pinf => .finite 0
  | .finite _, .ninf => .finite 0
  | .pinf, .finite b => if b < 0 then .ninf else .pinf
  | .ninf, .finite b => if b < 0 then .pinf else .ninf
  | .pinf, .pinf => .nan
  | .pinf, .ninf => .nan
  | .ninf, .pinf => .nan
  | .ninf, .ninf => .nan

/-- Arithmetic expressions over named numeric columns, the fragment of
the `DataFrame.eval` expression language the formulas use. -/
inductive FExpr
  | num (q : ℚ)
  | col (name : String)
  | neg (a : FExpr)
  | add (a b : FExpr)
  | sub (a b : FExpr)
  | mul (a b : FExpr)
  | div (a b : FExpr)
deriving DecidableEq

/-- Tokens of the expression language. -/
inductive FTok
  | num (q : ℚ)
  | ident (s : String)
  | lparen
  | rparen
  | plus
  | minus
  | star
  | slash
deriving DecidableEq

/-- Numeric value of a digit run. -/
def natOfDigits (ds : List Char) : Nat :=
  ds.foldl (fun n c => 10 * n + (c.toNat - '0'.toNat)) 0

/-- Tokenizer for the expression language: whitespace is skipped,
operators and parentheses are single tokens, a digit (or a dot followed
by a digit) starts a decimal literal, a letter or underscore starts an
identifier, and any other character is a syntax error (as the runtime
expression evaluator raises on characters such as brackets, commas or
stray dots).  Each step consumes at least one character, so fuel
`length + 1` suffices. -/
def tokenize : Nat → List Char → Except String (List FTok)
  | 0, _ => .error "invalid syntax"
  | _ + 1, [] => .ok []
  | fuel + 1, c :: rest =>
    if isPySpace c then tokenize fuel rest
    else if c = '+' then (tokenize fuel rest).map (fun l => FTok.plus :: l)
    else if c = '-' then (tokenize fuel rest).map (fun l => FTok.minus :: l)
    else if c = '*' then (tokenize fuel rest).map (fun l => FTok.star :: l)
    else if c = '/' then (tokenize fuel rest).map (fun l => FTok.slash :: l)
    else if c = '(' then (tokenize fuel rest).map (fun l => FTok.lparen :: l)
    else if c = ')' then (tokenize fuel rest).map (fun l => FTok.rparen :: l)
    else if c.isDigit then
      let ds := c :: rest.takeWhile Char.isDigit
      match rest.dropWhile Char.isDigit with
      | '.' :: rest2 =>
        let fs := rest2.takeWhile Char.isDigit
        (tokenize fuel (rest2.dropWhile Char.isDigit)).map
          (fun l => FTok.num ((natOfDigits ds : ℚ) + (natOfDigits fs : ℚ) / (10 : ℚ) ^ fs.length) :: l)
      | rest1 => (tokenize fuel rest1).map (fun l => FTok.num (natOfDigits ds : ℚ) :: l)
    else if c = '.' then
      match rest with
      | d :: _ =>
        if d.isDigit then
          let fs := rest.takeWhile Char.isDigit
          (tokenize fuel (rest.dropWhile Char.isDigit)).map
            (fun l => FTok.num ((natOfDigits fs : ℚ) / (10 : ℚ) ^ fs.length) :: l)
        else .error "invalid syntax"
      | [] => .error "invalid syntax"
    else if c.isAlpha || c = '_' then
      let ws := c :: rest.takeWhile isWordChar
      (tokenize fuel (rest.dropWhile isWordChar)).map (fun l => FTok.ident (String.mk ws) :: l)
    else .error "invalid syntax"

/-- Parser modes: a full expression (`+`/`-` level), its operator loop,
a term (`*`/`/` level), its operator loop, and a factor (unary sign,
literal, column name, or parenthesized expression). -/
inductive PMode
  | expr
  | exprRest (acc : FExpr)
  | term
  | termRest (acc : FExpr)
  | factor

/-- Recursive-descent parsing with standard precedence (`*`, `/` bind
tighter than `+`, `-`; parentheses override), modelling how the runtime
expression evaluator reads the formula.  Fuel is a structural-recursion
device; `parseFormulaText` supplies more than enough. -/
def parseM : Nat → PMode → List FTok → Except String (FExpr × List FTok)
  | 0, _, _ => .error "invalid syntax"
  | fuel + 1, PMode.expr, ts =>
    match parseM fuel PMode.term ts with
    | .ok (a, ts1) => parseM fuel (PMode.exprRest a) ts1
    | .error e => .error e
  | fuel + 1, PMode.exprRest a, ts =>
    match ts with
    | FTok.plus :: ts1 =>
      match parseM fuel PMode.term ts1 with
      | .ok (b, ts2) => parseM fuel (PMode.exprRest (FExpr.add a b)) ts2
      | .error e => .error e
    | FTok.minus :: ts1 =>
      match parseM fuel PMode.term ts1 with
      | .ok (b, ts2) => parseM fuel (PMode.exprRest (FExpr.sub a b)) ts2
      | .error e => .error e
    | _ => .ok (a, ts)
  | fuel + 1, PMode.term, ts =>
    match parseM fuel PMode.factor ts with
    | .ok (a, ts1) => parseM fuel (PMode.termRest a) ts1
    | .error e => .error e
  | fuel + 1, PMode.termRest a, ts =>
    match ts with
    | FTok.star :: ts1 =>
      match parseM fuel PMode.factor ts1 with
      | .ok (b, ts2) => parseM fuel (PMode.termRest (FExpr.mul a b)) ts2
      | .error e => .error e
    | FTok.slash :: ts1 =>
      match parseM fuel PMode.factor ts1 with
      | .ok (b, ts2) => parseM fuel (PMode.termRest (FExpr.div a b)) ts2
      | .error e => .error e
    | _ => .ok (a, ts)
  | fuel + 1, PMode.factor, ts =>
    match ts with
    | FTok.minus :: ts1 => (parseM fuel PMode.factor ts1).map (fun p => (FExpr.neg p.1, p.2))
    | FTok.plus :: ts1 => parseM fuel PMode.factor ts1
    | FTok.num q :: ts1 => .ok (FExpr.num q, ts1)
    | FTok.ident s :: ts1 => .ok (FExpr.col s, ts1)
    | FTok.lparen :: ts1 =>
      match parseM fuel PMode.expr ts1 with
      | .ok (a, FTok.rparen :: ts2) => .ok (a, ts2)
      | .ok _ => .error "invalid syntax"
      | .error e => .error e
    | _ => .error "invalid syntax"

/-- Tokenize and parse a whole formula; trailing tokens are a syntax
error. -/
def parseFormulaText (t : List Char) : Except String FExpr :=
  match tokenize (t.length + 1) t with
  | .error e => .error e
  | .ok ts =>
    match parseM (20 * ts.length + 20) PMode.expr ts with
    | .ok (e, []) => .ok e
    | .ok _ => .error "invalid syntax"
    | .error e => .error e

/-- First value bound to a column name in a row. -/
def rowLookup (r : List (String × PVal)) (name : String) : Option PVal :=
  (r.find? (fun p => p.1 == name)).map (fun p => p.2)

/-- Row-wise evaluation of an expression: every identifier token is
bound to that row's column value, with IEEE special-value arithmetic.
Evaluation is total — no row can make it fail. -/
def evalRow (r : List (String × PVal)) : FExpr → PVal
  | .num q => .finite q
  | .col n => (rowLookup r n).getD PVal.nan
  | .neg a => pNeg (evalRow r a)
  | .add a b => pAdd (evalRow r a) (evalRow r b)
  | .sub a b => pSub (evalRow r a) (evalRow r b)
  | .mul a b => pMul (evalRow r a) (evalRow r b)
  | .div a b => pDiv (evalRow r a) (evalRow r b)

/-- Column names referenced by an expression. -/
def exprIdents : FExpr → List String
  | .num _ => []
  | .col n => [n]
  | .neg a => exprIdents a
  | .add a b => exprIdents a ++ exprIdents b
  | .sub a b => exprIdents a ++ exprIdents b
  | .mul a b => exprIdents a ++ exprIdents b
  | .div a b => exprIdents a ++ exprIdents b

/-- The active dataset: its column set and its rows (each a list of
column-name / value bindings, one per column, in row order). -/
structure Dataset where
  columns : List String
  rows : List (List (String × PVal))

/-- Model of `data.eval(formula)`: parse the expression once, resolve
every referenced name against the frame's columns once, then evaluate
row-wise; parse failures and unresolved names raise, which the model
returns as `Except.error`. -/
def dataEval (d : Dataset) (t : List Char) : Except String (List PVal) :=
  match parseFormulaText t with
  | .error e => .error e
  | .ok e =>
    if (exprIdents e).all (fun n => d.columns.contains n) then
      .ok (d.rows.map (fun r => evalRow r e))
    else .error "name is not defined"

/-- Structured form of the error strings `evaluate_formula` produces. -/
inductive FormulaError
  | invalidChars
  | columnsNotFound (cols : List String)
  | evalFailed (msg : String)
deriving DecidableEq

/-- Python `", ".join(strs)`. -/
def joinComma : List String → String
  | [] => ""
  | [s] => s
  | s :: rest => s ++ ", " ++ joinComma rest

/-- The exact message strings of src/app.py lines 330, 342 and 351. -/
def renderFormulaError : FormulaError → String
  | .invalidChars => "Invalid characters in formula"
  | .columnsNotFound cols => "Columns not found: " ++ joinComma cols
  | .evalFailed msg =>
    "Formula error: " ++ msg ++ ". Make sure to use proper column names and operators (+, -, *, /)"

/-- The character whitelist literal of src/app.py line 328 (note that it
contains the square brackets). -/
def allowed_chars : List Char :=
  ("+-*/()[].,0123456789_abcdefghijklmnopqrstuvwxyzABCDEFGHIJKLMNOPQRSTUVWXYZ ").data

/-- Scanner for `re.findall(r'\b[A-Za-z_][A-Za-z0-9_]*\b', t)`: the
matches are exactly the maximal runs of word characters whose first
character is a letter or underscore (a run starting with a digit has no
internal word boundary, so no suffix of it can match).  Fuel
`length + 1` suffices. -/
def findIdents : Nat → List Char → List String
  | 0, _ => []
  | _ + 1, [] => []
  | fuel + 1, c :: rest =>
    if isWordChar c then
      if c.isAlpha || c = '_' then
        String.mk (c :: rest.takeWhile isWordChar) :: findIdents fuel (rest.dropWhile isWordChar)
      else findIdents fuel (rest.dropWhile isWordChar)
    else findIdents fuel rest

/-- Identifier-like tokens of a translated formula. -/
def findIdentsRun (t : List Char) : List String := findIdents (t.length + 1) t

/-- The fixed allow-list of function-like keywords (src/app.py line
340). -/
def formulaKeywords : List String := ["min", "max", "sum", "abs", "round"]

/-- Tokens that are neither dataset columns nor allow-listed keywords
(src/app.py lines 337-340: `missing_columns` then `actual_missing`). -/
def actualMissing (toks : List String) (cols : List String) : List String :=
  (toks.filter (fun c => !(cols.contains c))).filter (fun c => !(formulaKeywords.contains c))

/-- Model of `evaluate_formula` (src/app.py lines 316-351) with the
structured error type: blank formulas are a no-op pair `(none, none)`;
otherwise the stripped text is translated, checked against the character
whitelist, its identifier-like tokens are resolved against the dataset's
columns, and only then is the normalized text evaluated row-wise. -/
def evaluate_formula (formula : String) (d : Dataset) (m : List (String × String)) :
    Option (List PVal) × Option FormulaError :=
  if (pyStrip formula.data).isEmpty then (none, none)
  else
    let t := convert_short_names_to_technical (pyStrip formula.data) m
    if t.all (fun c => allowed_chars.contains c) then
      let miss := actualMissing (findIdentsRun t) d.columns
      if miss.isEmpty then
        match dataEval d (normOpsRun t) with
        | .ok s => (some s, none)
        | .error e => (none, some (FormulaError.evalFailed e))
      else (none, some (FormulaError.columnsNotFound miss))
    else (none, some FormulaError.invalidChars)

/-- The source function returns plain strings; composing the structured
model with the exact message renderer recovers them. -/
def evaluate_formula_msgs (formula : String) (d : Dataset) (m : List (String × String)) :
    Option (List PVal) × Option String :=
  ((evaluate_formula formula d m).1, (evaluate_formula formula d m).2.map renderFormulaError)

/-- Row-local well-definedness of an expression: every referenced cell
holds a finite value and every divisor evaluates to a finite nonzero
value. -/
def wellDefinedB (r : List (String × PVal)) : FExpr → Bool
  | .num _ => true
  | .col n =>
    match rowLookup r n with
    | some (PVal.finite _) => true
    | _ => false
  | .neg a => wellDefinedB r a
  | .add a b => wellDefinedB r a && wellDefinedB r b
  | .sub a b => wellDefinedB r a && wellDefinedB r b
  | .mul a b => wellDefinedB r a && wellDefinedB r b
  | .div a b =>
    wellDefinedB r a && wellDefinedB r b
      && (match evalRow r b with
          | PVal.finite q => decide (q ≠ 0)
          | _ => false)

/-- The two y axes of the composed chart. -/
inductive Axis
  | left
  | right
deriving DecidableEq

/-- One plotted series of the composed chart. -/
structure Trace where
  axis : Axis
  label : String
  ys : List PVal
deriving DecidableEq

/-- The composer's outcome: a chart, or the informational
"Select columns or enter formulas in the sidebar to visualize" prompt
(src/app.py line 465). -/
inductive ChartOutcome
  | chart (traces : List Trace)
  | nothingToRender
deriving DecidableEq

/-- The values of a literal selected column over the filtered rows. -/
def colSeries (d : Dataset) (c : String) : List PVal :=
  d.rows.map (fun r => (rowLookup r c).getD PVal.nan)

/-- The 0-or-1 formula trace of one axis, labelled with the raw formula
text (src/app.py lines 384-392 and 405-413). -/
def formulaTraces (ax : Axis) (ftext : String) (fr : Option (List PVal)) : List Trace :=
  match fr with
  | some s => [{ axis := ax, label := "Formula: " ++ ftext, ys := s }]
  | none => []

/-- The traces of an axis's literal column selections, labelled with
their short names (src/app.py lines 394-402 and 415-423). -/
def colTraces (toShort : String → String) (d : Dataset) (ax : Axis) (cols : List String) : List Trace :=
  cols.map (fun c => { axis := ax, label := toShort c, ys := colSeries d c })

/-- src/app.py line 374: the left axis contributes when it has selected
columns or a successfully evaluated formula series. -/
def has_left_data (cols : List String) (fr : Option (List PVal)) : Bool :=
  !cols.isEmpty || fr.isSome

/-- src/app.py line 375, same shape for the right axis. -/
def has_right_data (cols : List String) (fr : Option (List PVal)) : Bool :=
  !cols.isEmpty || fr.isSome

/-- Model of the chart composition (src/app.py lines 377-465): when some
axis contributes, emit the traces — per axis the formula series first,
then the literal columns; otherwise signal the informational
nothing-to-render prompt. -/
def composeChart (toShort : String → String) (d : Dataset) (lf rf : String)
    (lc rc : List String) (lfr rfr : Option (List PVal)) : ChartOutcome :=
  if has_left_data lc lfr || has_right_data rc rfr then
    ChartOutcome.chart
      (formulaTraces Axis.left lf lfr ++ colTraces toShort d Axis.left lc
        ++ formulaTraces Axis.right rf rfr ++ colTraces toShort d Axis.right rc)
  else ChartOutcome.nothingToRender

/-- The traces a chart outcome shows on one axis. -/
def tracesOn (ax : Axis) : ChartOutcome → List Trace
  | ChartOutcome.chart ts => ts.filter (fun t => t.axis == ax)
  | ChartOutcome.nothingToRender => []

/-- A stored price row: the fetched OHLCV row tagged with the commodity
name (only the fields the claims touch are modelled). -/
structure DbPriceRow where
  commodity : String
  date : Int
  close : ℚ
deriving DecidableEq

/-- A fetched price row before the commodity-name column is added. -/
structure FetchedRow where
  date : Int
  close : ℚ
deriving DecidableEq

/-- Adding the `Commodity_Name` column to a fetched frame
(src/fetch_prices.py line 188). -/
def tagRows (name : String) (rows : List FetchedRow) : List DbPriceRow :=
  rows.map (fun r => { commodity := name, date := r.date, close := r.close })

/-- Model of `save_prices_to_database` (src/fetch_prices.py lines
171-207): for each commodity in the dictionary, skip empty frames, tag
the rows with the commodity name, and `to_sql(..., if_exists='append')`
them onto the `commodity_prices` table. -/
def save_prices_to_database (prices : List (String × List FetchedRow)) (db : List DbPriceRow) :
    List DbPriceRow :=
  prices.foldl (fun acc p => if p.2.isEmpty then acc else acc ++ tagRows p.1 p.2) db

/-- The rows every series of `prices` contributes, in order. -/
def flatTagged (prices : List (String × List FetchedRow)) : List DbPriceRow :=
  (prices.map (fun p => tagRows p.1 p.2)).flatten

/-- The SQLite database as seen by the price cache: `none` models a
database in which the `commodity_prices` table was never created. -/
structure PriceDb where
  commodity_prices : Option (List DbPriceRow)

/-- Stable insertion by date, ascending. -/
def insertByDate (r : DbPriceRow) : List DbPriceRow → List DbPriceRow
  | [] => [r]
  | q :: qs => if r.date ≤ q.date then r :: q :: qs else q :: insertByDate r qs

/-- The `ORDER BY DATE` of the cache query. -/
def sortByDate (l : List DbPriceRow) : List DbPriceRow := l.foldr insertByDate []

/-- Model of `get_commodity_prices_from_db` (src/fetch_prices.py lines
210-250) for a specific commodity: the function first checks
`sqlite_master` for the `commodity_prices` table and returns an empty
frame when it is absent; otherwise it selects the commodity's rows
ordered by date. -/
def get_commodity_prices_from_db (name : String) (db : PriceDb) : List DbPriceRow :=
  match db.commodity_prices with
  | none => []
  | some rows => sortByDate (rows.filter (fun r => r.commodity == name))

/-- Model of the cache-aside branch (src/app.py lines 484-500): read the
cache; when it is empty, fall back to the freshly fetched rows.  The
boolean records whether the fetch branch was entered. -/
def price_data_after_cache_check (name : String) (db : PriceDb) (fetched : List FetchedRow) :
    List DbPriceRow × Bool :=
  let cached := get_commodity_prices_from_db name db
  if cached.isEmpty then (tagRows name fetched, true) else (cached, false)

/-- Model of the price-window filter (src/app.py lines 523-526): keep
exactly the price rows whose date lies in the selected range, comparing
date values. -/
def price_data_filtered (sel : Int × Int) (prices : List DbPriceRow) : List DbPriceRow :=
  prices.filter (fun r => decide (sel.1 ≤ r.date) && decide (r.date ≤ sel.2))

/-- Minimum of a date list (`series.min()`), `none` on an empty list. -/
def listMinI : List Int → Option Int
  | [] => none
  | x :: xs => some (xs.foldl min x)

/-- Maximum of a date list (`series.max()`), `none` on an empty list. -/
def listMaxI : List Int → Option Int
  | [] => none
  | x :: xs => some (xs.foldl max x)

/-- The price chart's pinned x-axis range (src/app.py lines 529-531 and
558-564): the min and max dates of the filtered positioning data. -/
def pinnedRange (cotDates : List Int) : Option Int × Option Int :=
  (listMinI cotDates, listMaxI cotDates)

/-- The price panel's outcomes (src/app.py lines 521-586). -/
inductive PricePanel
  | noMapping
  | noData
  | noDataInRange
  | priceChart (rows : List DbPriceRow) (pin : Option Int × Option Int)
deriving DecidableEq

/-- Model of the price panel (src/app.py lines 467-586): no mapping
gives the informational no-mapping message; otherwise the cache-aside
read runs, an empty result gives the no-data message, an empty windowed
series gives the no-data-in-range message, and otherwise the windowed
series is charted with the x axis pinned to the positioning data's date
extremes.  The panel consumes no formula state. -/
def pricePanelOf (mapping : Option String) (db : PriceDb) (name : String)
    (fetched : List FetchedRow) (sel : Int × Int) (cotDates : List Int) : PricePanel :=
  match mapping with
  | none => PricePanel.noMapping
  | some _ =>
    let pd := (price_data_after_cache_check name db fetched).1
    if pd.isEmpty then PricePanel.noData
    else
      let pf := price_data_filtered sel pd
      if pf.isEmpty then PricePanel.noDataInRange
      else PricePanel.priceChart pf (pinnedRange cotDates)

/-- src/app.py lines 359-371: a formula is evaluated only when its text
is non-empty (Python truthiness of the input string). -/
def formulaOutcome (f : String) (d : Dataset) (m : List (String × String)) :
    Option (List PVal) × Option FormulaError :=
  if f == "" then (none, none) else evaluate_formula f d m

/-- The per-axis error message display (src/app.py lines 459-463): the
message is emitted only inside the chart branch, prefixed with its own
axis's name. -/
def shownError (axisPre : String) (err : Option FormulaError) : ChartOutcome → Option String
  | ChartOutcome.chart _ => err.map (fun e => axisPre ++ renderFormulaError e)
  | ChartOutcome.nothingToRender => none

/-- Everything the visualization tab renders that the claims inspect. -/
structure RenderState where
  chartOut : ChartOutcome
  leftErrorShown : Option String
  rightErrorShown : Option String
  panel : PricePanel
deriving DecidableEq

/-- Model of one recomputation pass of the visualization tab
(src/app.py lines 353-586): evaluate each axis's formula, keep a
successful series or its per-axis error, compose the chart, display each
axis's error message next to the chart (the messages are emitted inside
the chart branch, lines 459-463), and render the price panel, which
depends only on the price inputs. -/
def renderPage (toShort : String → String) (d : Dataset) (m : List (String × String))
    (lf rf : String) (lc rc : List String)
    (mapping : Option String) (db : PriceDb) (name : String) (fetched : List FetchedRow)
    (sel : Int × Int) (cotDates : List Int) : RenderState :=
  let lres := formulaOutcome lf d m
  let rres := formulaOutcome rf d m
  let lfr := if lres.2.isSome then none else lres.1
  let rfr := if rres.2.isSome then none else rres.1
  let chart := composeChart toShort d lf rf lc rc lfr rfr
  { chartOut := chart
    leftErrorShown := shownError "Left axis formula error: " lres.2 chart
    rightErrorShown := shownError "Right axis formula error: " rres.2 chart
    panel := pricePanelOf mapping db name fetched sel cotDates }

/-- Rendered from the claim's words, for comparison with the source's
whitelist: the characters "+ - * / ( ) . , 0-9 A-Z a-z _ or space". -/
def claimWhitelist : List Char :=
  ("+-*/().,0123456789ABCDEFGHIJKLMNOPQRSTUVWXYZabcdefghijklmnopqrstuvwxyz_ ").data

/-- The dataset of the claims' worked examples: two rows of the columns
the example formula references, one with a zero open interest. -/
def demoData : Dataset :=
  { columns := ["MM_Long", "MM_Short", "Open_Interest_All"],
    rows := [
      [("MM_Long", PVal.finite 5), ("MM_Short", PVal.finite 2), ("Open_Interest_All", PVal.finite 10)],
      [("MM_Long", PVal.finite 5), ("MM_Short", PVal.finite 2), ("Open_Interest_All", PVal.finite 0)]] }

/-- The parse tree of the example formula
`(MM_Long-MM_Short)/Open_Interest_All`. -/
def demoExpr : FExpr :=
  FExpr.div (FExpr.sub (FExpr.col "MM_Long") (FExpr.col "MM_Short"))
    (FExpr.col "Open_Interest_All")

/-- The user-selected date range of the C7 example, 2023-01-01 to
2023-06-30, dates encoded as YYYYMMDD integers. -/
def demoSel : Int × Int := (20230101, 20230630)

/-- Filtered positioning report dates of the C7 example: weekly report
dates strictly inside the selected range. -/
def demoCotDates : List Int := [20230103, 20230627]

/-- A price series spanning 2022 to 2024 with trading-day cadence. -/
def demoPrices : List DbPriceRow :=
  [{ commodity := "GOLD", date := 20220601, close := 100 },
   { commodity := "GOLD", date := 20230102, close := 101 },
   { commodity := "GOLD", date := 20230215, close := 102 },
   { commodity := "GOLD", date := 20230629, close := 103 },
   { commodity := "GOLD", date := 20231215, close := 104 }]

/-- A one-commodity, one-row price dictionary for the C8 example. -/
def demoSave : List (String × List FetchedRow) :=
  [("GOLD", [{ date := 20230101, close := 100 }])]

/-- Decidable equality for fallible results, used to evaluate the model
on concrete inputs. -/
instance {a b : Type} [DecidableEq a] [DecidableEq b] : DecidableEq (Except a b) := fun x y =>
  match x, y with
  | Except.ok u, Except.ok v =>
    if h : u = v then isTrue (by rw [h]) else isFalse (by intro hc; injection hc; contradiction)
  | Except.error u, Except.error v =>
    if h : u = v then isTrue (by rw [h]) else isFalse (by intro hc; injection hc; contradiction)
  | Except.ok _, Except.error _ => isFalse (by intro hc; cases hc)
  | Except.error _, Except.ok _ => isFalse (by intro hc; cases hc)

/-- A well-defined expression evaluates to a finite value on that row. -/
theorem wellDefinedB_finite (r : List (String × PVal)) :
    ∀ e : FExpr, wellDefinedB r e = true → ∃ q, evalRow r e = PVal.finite q := by
  intro e
  induction e with
  | num q => intro _; exact ⟨q, rfl⟩
  | col n =>
    intro h
    cases hl : rowLookup r n with
    | none => simp [wellDefinedB, hl] at h
    | some v =>
      cases v with
      | finite q => exact ⟨q, by simp [evalRow, hl]⟩
      | nan => simp [wellDefinedB, hl] at h
      | pinf => simp [wellDefinedB, hl] at h
      | ninf => simp [wellDefinedB, hl] at h
  | neg a iha =>
    intro h
    obtain ⟨qa, ha⟩ := iha (by simpa [wellDefinedB] using h)
    exact ⟨-qa, by simp [evalRow, ha, pNeg]⟩
  | add a b iha ihb =>
    intro h
    simp only [wellDefinedB, Bool.and_eq_true] at h
    obtain ⟨qa, ha⟩ := iha h.1
    obtain ⟨qb, hb⟩ := ihb h.2
    exact ⟨qa + qb, by simp [evalRow, ha, hb, pAdd]⟩
  | sub a b iha ihb =>
    intro h
    simp only [wellDefinedB, Bool.and_eq_true] at h
    obtain ⟨qa, ha⟩ := iha h.1
    obtain ⟨qb, hb⟩ := ihb h.2
    exact ⟨qa + -qb, by simp [evalRow, ha, hb, pSub, pAdd, pNeg]⟩
  | mul a b iha ihb =>
    intro h
    simp only [wellDefinedB, Bool.and_eq_true] at h
    obtain ⟨qa, ha⟩ := iha h.1
    obtain ⟨qb, hb⟩ := ihb h.2
    exact ⟨qa * qb, by simp [evalRow, ha, hb, pMul]⟩
  | div a b iha ihb =>
    intro h
    simp only [wellDefinedB, Bool.and_eq_true] at h
    obtain ⟨⟨h1, h2⟩, h3⟩ := h
    obtain ⟨qa, ha⟩ := iha h1
    obtain ⟨qb, hb⟩ := ihb h2
    rw [hb] at h3
    simp only [decide_eq_true_eq] at h3
    exact ⟨qa / qb, by simp [evalRow, ha, hb, pDiv, h3]⟩

/-- Folding `min` never exceeds the seed. -/
theorem foldl_min_le_init : ∀ (xs : List Int) (x : Int), xs.foldl min x ≤ x := by
  intro xs
  induction xs with
  | nil => intro x; simp
  | cons a as ih => intro x; exact le_trans (ih (min x a)) (min_le_left x a)

/-- Folding `min` is a lower bound of the list. -/
theorem foldl_min_le_mem : ∀ (xs : List Int) (x y : Int), y ∈ xs → xs.foldl min x ≤ y := by
  intro xs
  induction xs with
  | nil => intro x y h; cases h
  | cons a as ih =>
    intro x y h
    cases h with
    | head => exact le_trans (foldl_min_le_init as (min x a)) (min_le_right x a)
    | tail _ hy => exact ih (min x a) y hy

/-- Folding `min` returns the seed or a list element. -/
theorem foldl_min_mem : ∀ (xs : List Int) (x : Int), xs.foldl min x = x ∨ xs.foldl min x ∈ xs := by
  intro xs
  induction xs with
  | nil => intro x; left; rfl
  | cons a as ih =>
    intro x
    rcases ih (min x a) with h | h
    · rw [List.foldl_cons, h]
      rcases min_choice x a with h2 | h2
      · left; exact h2
      · right; rw [h2]; exact List.mem_cons_self a as
    · right; exact List.mem_cons_of_mem a h

/-- Folding `max` never falls below the seed. -/
theorem foldl_max_ge_init : ∀ (xs : List Int) (x : Int), x ≤ xs.foldl max x := by
  intro xs
  induction xs with
  | nil => intro x; simp
  | cons a as ih => intro x; exact le_trans (le_max_left x a) (ih (max x a))

/-- Folding `max` is an upper bound of the list. -/
theorem foldl_max_ge_mem : ∀ (xs : List Int) (x y : Int), y ∈ xs → y ≤ xs.foldl max x := by
  intro xs
  induction xs with
  | nil => intro x y h; cases h
  | cons a as ih =>
    intro x y h
    cases h with
    | head => exact le_trans (le_max_right x a) (foldl_max_ge_init as (max x a))
    | tail _ hy => exact ih (max x a) y hy

/-- Folding `max` returns the seed or a list element. -/
theorem foldl_max_mem : ∀ (xs : List Int) (x : Int), xs.foldl max x = x ∨ xs.foldl max x ∈ xs := by
  intro xs
  induction xs with
  | nil => intro x; left; rfl
  | cons a as ih =>
    intro x
    rcases ih (max x a) with h | h
    · rw [List.foldl_cons, h]
      rcases max_choice x a with h2 | h2
      · left; exact h2
      · right; rw [h2]; exact List.mem_cons_self a as
    · right; exact List.mem_cons_of_mem a h

/-- Saving a price dictionary appends all its tagged rows. -/
theorem save_prices_eq_append :
    ∀ (prices : List (String × List FetchedRow)) (db : List DbPriceRow),
      save_prices_to_database prices db = db ++ flatTagged prices := by
  intro prices
  induction prices with
  | nil => intro db; simp [save_prices_to_database, flatTagged]
  | cons p ps ih =>
    intro db
    have hstep : save_prices_to_database (p :: ps) db
        = save_prices_to_database ps (if p.2.isEmpty then db else db ++ tagRows p.1 p.2) := rfl
    rw [hstep, ih]
    by_cases h : p.2.isEmpty
    · have hp : tagRows p.1 p.2 = [] := by
        cases hq : p.2 with
        | nil => simp [tagRows]
        | cons a l => rw [hq] at h; simp at h
      rw [if_pos h]
      simp [flatTagged, hp]
    · rw [if_neg h]
      simp [flatTagged, List.append_assoc]

/-- Filtering the traces of an axis for that same axis keeps them all. -/
theorem filter_colTraces_self (toShort : String → String) (d : Dataset) (ax : Axis) :
    ∀ cols : List String,
      (colTraces toShort d ax cols).filter (fun t => t.axis == ax) = colTraces toShort d ax cols := by
  intro cols
  induction cols with
  | nil => rfl
  | cons c cs ih =>
    simp only [colTraces, List.map_cons, List.filter_cons] at ih ⊢
    simp_all

/-- Filtering the traces of an axis for the other axis removes them. -/
theorem filter_colTraces_ne (toShort : String → String) (d : Dataset) (ax ax2 : Axis)
    (hne : (ax == ax2) = false) :
    ∀ cols : List String,
      (colTraces toShort d ax cols).filter (fun t => t.axis == ax2) = [] := by
  intro cols
  induction cols with
  | nil => rfl
  | cons c cs ih =>
    simp only [colTraces, List.map_cons, List.filter_cons] at ih ⊢
    simp_all

/-- The right-axis traces of the composed chart are exactly the right
formula trace followed by the right literal-column traces, whatever the
left axis holds (when nothing renders, the right axis holds nothing). -/
theorem tracesOn_right_composeChart (toShort : String → String) (d : Dataset) (lf rf : String)
    (lc rc : List String) (lfr rfr : Option (List PVal)) :
    tracesOn Axis.right (composeChart toShort d lf rf lc rc lfr rfr)
      = formulaTraces Axis.right rf rfr ++ colTraces toShort d Axis.right rc := by
  by_cases h : (has_left_data lc lfr || has_right_data rc rfr) = true
  · rw [composeChart, if_pos h]
    have h1 := filter_colTraces_ne toShort d Axis.left Axis.right (by decide) lc
    have h2 := filter_colTraces_self toShort d Axis.right rc
    cases lfr with
    | none => cases rfr with
      | none => simp [tracesOn, List.filter_append, formulaTraces, h1, h2]
      | some s => simp [tracesOn, List.filter_append, formulaTraces, h1, h2, List.filter_cons]
    | some s => cases rfr with
      | none => simp [tracesOn, List.filter_append, formulaTraces, h1, h2, List.filter_cons]
      | some s2 => simp [tracesOn, List.filter_append, formulaTraces, h1, h2, List.filter_cons]
  · rw [composeChart, if_neg h]
    have hr : has_right_data rc rfr = false := by
      rcases Bool.or_eq_false_iff.mp (Bool.not_eq_true _ |>.mp h) with ⟨_, hr⟩
      exact hr
    have hrc : rc = [] := by
      rcases Bool.or_eq_false_iff.mp hr with ⟨h3, _⟩
      simpa using List.isEmpty_iff.mp (by simpa using h3)
    have hrfr : rfr = none := by
      rcases Bool.or_eq_false_iff.mp hr with ⟨_, h4⟩
      exact Option.not_isSome_iff_eq_none.mp (by simp [h4])
    simp [tracesOn, hrc, hrfr, formulaTraces, colTraces]

/-- Mirror statement for the left axis: its traces are the left formula
trace followed by the left literal-column traces. -/
theorem tracesOn_left_composeChart (toShort : String → String) (d : Dataset) (lf rf : String)
    (lc rc : List String) (lfr rfr : Option (List PVal)) :
    tracesOn Axis.left (composeChart toShort d lf rf lc rc lfr rfr)
      = formulaTraces Axis.left lf lfr ++ colTraces toShort d Axis.left lc := by
  by_cases h : (has_left_data lc lfr || has_right_data rc rfr) = true
  · rw [composeChart, if_pos h]
    have h1 := filter_colTraces_ne toShort d Axis.right Axis.left (by decide) rc
    have h2 := filter_colTraces_self toShort d Axis.left lc
    cases lfr with
    | none => cases rfr with
      | none => simp [tracesOn, List.filter_append, formulaTraces, h1, h2]
      | some s => simp [tracesOn, List.filter_append, formulaTraces, h1, h2, List.filter_cons]
    | some s => cases rfr with
      | none => simp [tracesOn, List.filter_append, formulaTraces, h1, h2, List.filter_cons]
      | some s2 => simp [tracesOn, List.filter_append, formulaTraces, h1, h2, List.filter_cons]
  · rw [composeChart, if_neg h]
    have hl : has_left_data lc lfr = false := by
      rcases Bool.or_eq_false_iff.mp (Bool.not_eq_true _ |>.mp h) with ⟨hl, _⟩
      exact hl
    have hlc : lc = [] := by
      rcases Bool.or_eq_false_iff.mp hl with ⟨h3, _⟩
      simpa using List.isEmpty_iff.mp (by simpa using h3)
    have hlfr : lfr = none := by
      rcases Bool.or_eq_false_iff.mp hl with ⟨_, h4⟩
      exact Option.not_isSome_iff_eq_none.mp (by simp [h4])
    simp [tracesOn, hlc, hlfr, formulaTraces, colTraces]

/-- C1: the translator is claimed to substitute case-insensitive
whole-word occurrences of short labels longest-first so that a shorter
label is never substituted inside text belonging to a longer label,
including for labels whose edges are non-alphanumeric characters.  The
code violates this: with aliases "OI" and "% OI MM Long" both present,
the pattern for the longer label starts with the zero-width boundary
assertion immediately before the non-word percent character, which can
never hold at the start of the string, so the long label is not replaced
as a unit and the shorter alias "OI" is then substituted inside it,
corrupting it.  This theorem evaluates the embedded translator at the
failing input and exhibits the corrupted output. -/
theorem C1_translator_corrupts_percent_label :
    convert_short_names_to_technical ("% OI MM Long - OI").data
        [("OI", "Open_Interest_All"), ("% OI MM Long", "Pct_of_OI_M_Money_Long_All")]
      = ("% Open_Interest_All MM Long - Open_Interest_All").data := by
  decide

/-- C2 counterexample: the claim says the derived series and the error
are never both empty, for every formula text; but a whitespace-only
formula (which the caller's truthiness guard does not filter out) makes
`evaluate_formula` return the pair with both components empty. -/
theorem C2_cex_blank_formula :
    evaluate_formula "   " demoData [] = (none, none) := by
  decide

/-- C2 amended: `evaluate_formula` never returns both a series and an
error, and it returns neither exactly when the formula text is blank
(empty or whitespace-only); for every non-blank formula exactly one of
the two components is populated. -/
theorem C2_result_error_exclusive :
    ∀ (f : String) (d : Dataset) (m : List (String × String)),
      ((evaluate_formula f d m).1.isSome && (evaluate_formula f d m).2.isSome) = false
      ∧ (((evaluate_formula f d m).1.isNone && (evaluate_formula f d m).2.isNone)
          = (pyStrip f.data).isEmpty) := by
  intro f d m
  unfold evaluate_formula
  by_cases h1 : (pyStrip f.data).isEmpty
  · rw [if_pos h1]
    simp [h1]
  · rw [if_neg h1]
    by_cases h2 : (convert_short_names_to_technical (pyStrip f.data) m).all
        (fun c => allowed_chars.contains c)
    · rw [if_pos h2]
      by_cases h3 : (actualMissing
          (findIdentsRun (convert_short_names_to_technical (pyStrip f.data) m)) d.columns).isEmpty
      · rw [if_pos h3]
        cases hE : dataEval d (normOpsRun (convert_short_names_to_technical (pyStrip f.data) m)) with
        | ok s => simp [h1]
        | error e => simp [h1]
      · rw [if_neg h3]
        simp [h1]
    · rw [if_neg h2]
      simp [h1]

/-- C8 counterexample: the claim says saving the same price series twice
leaves the stored data equal to saving it once; but the save is a plain
append, so the second save duplicates the row. -/
theorem C8_cex_double_save_duplicates :
    save_prices_to_database demoSave (save_prices_to_database demoSave [])
        = [{ commodity := "GOLD", date := 20230101, close := 100 },
           { commodity := "GOLD", date := 20230101, close := 100 }]
      ∧ save_prices_to_database demoSave []
        = [{ commodity := "GOLD", date := 20230101, close := 100 }]
      ∧ decide (save_prices_to_database demoSave (save_prices_to_database demoSave [])
          = save_prices_to_database demoSave []) = false := by
  exact ⟨by decide, by decide, by decide⟩

/-- C8 amended: `save_prices_to_database` is an unconditional append of
the fetched rows tagged with their commodity name (`if_exists='append'`,
no key-based replacement), so saving the same series twice appends its
rows twice rather than leaving the table unchanged — the write is
append-only but retrying it duplicates rows. -/
theorem C8_save_is_append_not_upsert :
    ∀ (prices : List (String × List FetchedRow)) (db : List DbPriceRow),
      save_prices_to_database prices db = db ++ flatTagged prices
      ∧ save_prices_to_database prices (save_prices_to_database prices db)
          = db ++ flatTagged prices ++ flatTagged prices := by
  intro prices db
  refine ⟨save_prices_eq_append prices db, ?_⟩
  rw [save_prices_eq_append, save_prices_eq_append]

/-- C10: reading cached prices from a database in which the
`commodity_prices` table was never created returns an empty result (the
function checks `sqlite_master` first) instead of raising, and the
caller's cache-aside branch then treats the empty result as a miss and
uses the externally fetched rows. -/
theorem C10_missing_table_is_cache_miss :
    ∀ (name : String) (fetched : List FetchedRow),
      get_commodity_prices_from_db name { commodity_prices := none } = []
      ∧ price_data_after_cache_check name { commodity_prices := none } fetched
          = (tagRows name fetched, true) := by
  intro name fetched
  exact ⟨rfl, rfl⟩

/-- The example formula parses to the expected expression tree. -/
theorem demo_parse :
    parseFormulaText ("(MM_Long-MM_Short)/Open_Interest_All").data = Except.ok demoExpr := by
  decide

/-- Row-wise evaluation of the example formula over the example dataset:
the well-defined first row gives the finite 3/10, the zero-divisor
second row gives positive infinity. -/
theorem demo_dataEval :
    dataEval demoData ("(MM_Long-MM_Short)/Open_Interest_All").data
      = Except.ok [PVal.finite (3 / 10), PVal.pinf] := by
  unfold dataEval
  rw [demo_parse]
  dsimp only
  rw [if_pos (by decide)]
  simp [demoData, demoExpr, evalRow, rowLookup, pSub, pAdd, pNeg]
  norm_num [pDiv]

/-- The full pipeline on the example formula text (short names happen to
equal the technical names here, so the alias map is empty). -/
theorem demo_evaluate_formula :
    evaluate_formula "(MM_Long - MM_Short) / Open_Interest_All" demoData []
        = (some [PVal.finite (3 / 10), PVal.pinf], none) := by
  have h1 : (pyStrip ("(MM_Long - MM_Short) / Open_Interest_All").data).isEmpty = false := by decide
  have h2 : (convert_short_names_to_technical
      (pyStrip ("(MM_Long - MM_Short) / Open_Interest_All").data) []).all
      (fun c => allowed_chars.contains c) = true := by decide
  have h3 : (actualMissing (findIdentsRun (convert_short_names_to_technical
      (pyStrip ("(MM_Long - MM_Short) / Open_Interest_All").data) [])) demoData.columns).isEmpty
      = true := by decide
  have hn : normOpsRun (convert_short_names_to_technical
      (pyStrip ("(MM_Long - MM_Short) / Open_Interest_All").data) [])
      = ("(MM_Long-MM_Short)/Open_Interest_All").data := by decide
  simp only [evaluate_formula]
  rw [h1, h2, h3, hn, demo_dataEval]
  simp

/-- C3 counterexample: the claim says a row with a zero divisor yields a
not-a-number value; over a row with a nonzero numerator (MM_Long = 5,
MM_Short = 2) and Open_Interest_All = 0 the evaluator instead yields
positive infinity, which is not the not-a-number value, while the
well-defined row yields the finite 3/10 in the same series. -/
theorem C3_cex_zero_divisor_gives_infinity :
    evaluate_formula "(MM_Long - MM_Short) / Open_Interest_All" demoData []
        = (some [PVal.finite (3 / 10), PVal.pinf], none)
      ∧ decide (PVal.pinf = PVal.nan) = false := by
  exact ⟨demo_evaluate_formula, by decide⟩

/-- C3 amended: a successful `data.eval` is computed row-wise — the
value at each index is a total function of that row alone, so no row can
abort the series; a row on which the formula is well defined (finite
cells, nonzero finite divisors) yields a finite value; and a division
whose divisor is zero yields a non-finite value at that row — the
not-a-number value when the dividend is zero, a signed infinity when it
is nonzero — while a missing (not-a-number) divisor yields the
not-a-number value. -/
theorem C3_rowwise_division_locality :
    ∀ (d : Dataset) (t : List Char) (s : List PVal),
      dataEval d t = Except.ok s →
      ∃ e : FExpr,
        (∀ i : Nat, s[i]? = (d.rows[i]?).map (fun r => evalRow r e))
        ∧ (∀ r, wellDefinedB r e = true → ∃ q, evalRow r e = PVal.finite q)
        ∧ (∀ r a b qa, evalRow r a = PVal.finite qa → evalRow r b = PVal.finite 0 →
            evalRow r (FExpr.div a b)
              = (if qa = 0 then PVal.nan else if 0 < qa then PVal.pinf else PVal.ninf))
        ∧ (∀ r a b, evalRow r b = PVal.nan → evalRow r (FExpr.div a b) = PVal.nan) := by
  intro d t s h
  unfold dataEval at h
  cases hP : parseFormulaText t with
  | error e =>
    rw [hP] at h
    exact Except.noConfusion h
  | ok e =>
    rw [hP] at h
    dsimp only at h
    by_cases hI : ((exprIdents e).all fun n => d.columns.contains n) = true
    · rw [if_pos hI] at h
      injection h with h
      refine ⟨e, ?_, ?_, ?_, ?_⟩
      · intro i
        rw [← h]
        simp
      · intro r
        exact wellDefinedB_finite r e
      · intro r a b qa ha hb
        simp [evalRow, ha, hb, pDiv]
      · intro r a b hb
        cases hA : evalRow r a <;> simp [evalRow, hb, hA, pDiv]
    · rw [if_neg hI] at h
      exact Except.noConfusion h

/-- C3 witness: the amended theorem instantiated on the worked example —
the two-row dataset with a zero open interest in the second row and the
normalized example formula; the hypothesis is discharged by computation
and the row-wise characterization is extracted. -/
theorem C3_rowwise_division_locality_witness :
    dataEval demoData ("(MM_Long-MM_Short)/Open_Interest_All").data
        = Except.ok [PVal.finite (3 / 10), PVal.pinf]
    ∧ ∃ e : FExpr,
        ∀ i : Nat, ([PVal.finite (3 / 10), PVal.pinf] : List PVal)[i]?
          = (demoData.rows[i]?).map (fun r => evalRow r e) := by
  obtain ⟨e, hloc, _, _, _⟩ := C3_rowwise_division_locality demoData _ _ demo_dataEval
  exact ⟨demo_dataEval, e, hloc⟩

/-- C4 counterexample: the claim says the accepted character set is
exactly `+-*/().,`, digits, letters, underscore and space; but the
source's whitelist also contains the square brackets, so a formula
consisting of an opening bracket passes the character check (its
eventual error is an evaluation error, not the invalid-characters one)
although the bracket is outside the claimed set. -/
theorem C4_cex_bracket_passes_whitelist :
    (evaluate_formula "[" demoData []).2 = some (FormulaError.evalFailed "invalid syntax")
    ∧ claimWhitelist.contains '[' = false := by
  exact ⟨by decide, by decide⟩

/-- C4 amended: the whitelist the validator accepts is exactly the
claimed set plus the two square brackets; a translated formula with a
character outside the source's whitelist is rejected with the
invalid-characters error before any evaluation, and one whose characters
all lie in it is never rejected with that error. -/
theorem C4_char_whitelist_with_brackets :
    ∀ (f : String) (d : Dataset) (m : List (String × String)),
      ((pyStrip f.data).isEmpty = false →
        (((convert_short_names_to_technical (pyStrip f.data) m).all
            (fun c => allowed_chars.contains c) = false →
          evaluate_formula f d m = (none, some FormulaError.invalidChars))
        ∧ ((convert_short_names_to_technical (pyStrip f.data) m).all
            (fun c => allowed_chars.contains c) = true →
          (evaluate_formula f d m).2 ≠ some FormulaError.invalidChars)))
      ∧ allowed_chars.all (fun c => claimWhitelist.contains c || c == '[' || c == ']') = true
      ∧ claimWhitelist.all (fun c => allowed_chars.contains c) = true
      ∧ renderFormulaError FormulaError.invalidChars = "Invalid characters in formula" := by
  intro f d m
  refine ⟨?_, by decide, by decide, rfl⟩
  intro h1
  constructor
  · intro h2
    simp only [evaluate_formula]
    rw [h1, h2]
    simp
  · intro h2
    simp only [evaluate_formula]
    rw [h1, h2]
    by_cases h3 : (actualMissing
        (findIdentsRun (convert_short_names_to_technical (pyStrip f.data) m)) d.columns).isEmpty
    · rw [h3]
      cases hE : dataEval d (normOpsRun (convert_short_names_to_technical (pyStrip f.data) m)) with
      | ok s => simp
      | error e => simp
    · rw [Bool.not_eq_true _ |>.mp h3]
      simp

/-- C4 witness: the claim's own example — the injection attempt is
rejected with the invalid-characters error (the semicolon is outside the
whitelist), obtained by applying the amended theorem at that input. -/
theorem C4_char_whitelist_witness :
    (pyStrip ("Open_Interest_All; DROP TABLE x").data).isEmpty = false
    ∧ evaluate_formula "Open_Interest_All; DROP TABLE x" demoData []
        = (none, some FormulaError.invalidChars) := by
  refine ⟨by decide, ?_⟩
  exact ((C4_char_whitelist_with_brackets "Open_Interest_All; DROP TABLE x" demoData []).1
    (by decide)).1 (by decide)

/-- C5: after translation and the character check, every
identifier-like token that is neither a dataset column nor one of the
fixed keywords min, max, sum, abs, round lands in the reported missing
list; when that list is non-empty the formula is rejected with the
columns-not-found error naming exactly that list, and when it is empty
the check passes and evaluation proceeds. -/
theorem C5_unresolved_columns_rejected :
    ∀ (f : String) (d : Dataset) (m : List (String × String)),
      (pyStrip f.data).isEmpty = false →
      (convert_short_names_to_technical (pyStrip f.data) m).all
          (fun c => allowed_chars.contains c) = true →
      (∀ tok, tok ∈ findIdentsRun (convert_short_names_to_technical (pyStrip f.data) m) →
          d.columns.contains tok = false → formulaKeywords.contains tok = false →
          tok ∈ actualMissing
            (findIdentsRun (convert_short_names_to_technical (pyStrip f.data) m)) d.columns)
      ∧ ((actualMissing (findIdentsRun (convert_short_names_to_technical (pyStrip f.data) m))
            d.columns).isEmpty = false →
          evaluate_formula f d m
            = (none, some (FormulaError.columnsNotFound
                (actualMissing
                  (findIdentsRun (convert_short_names_to_technical (pyStrip f.data) m))
                  d.columns))))
      ∧ ((actualMissing (findIdentsRun (convert_short_names_to_technical (pyStrip f.data) m))
            d.columns).isEmpty = true →
          evaluate_formula f d m
            = (match dataEval d (normOpsRun (convert_short_names_to_technical (pyStrip f.data) m)) with
               | Except.ok s => (some s, none)
               | Except.error e => (none, some (FormulaError.evalFailed e)))) := by
  intro f d m h1 h2
  refine ⟨?_, ?_, ?_⟩
  · intro tok hmem hc hk
    unfold actualMissing
    refine List.mem_filter.mpr ⟨List.mem_filter.mpr ⟨hmem, ?_⟩, ?_⟩
    · simpa using hc
    · simpa using hk
  · intro h3
    simp only [evaluate_formula]
    rw [h1, h2, h3]
    simp
  · intro h3
    simp only [evaluate_formula]
    rw [h1, h2, h3]
    cases hE : dataEval d (normOpsRun (convert_short_names_to_technical (pyStrip f.data) m)) with
    | ok s => simp
    | error e => simp

/-- C5 witness: the claim's example — a reference to an unknown column
is rejected with the columns-not-found error listing it, obtained by
applying the theorem at that input. -/
theorem C5_unresolved_columns_witness :
    actualMissing (findIdentsRun (convert_short_names_to_technical
        (pyStrip ("NotARealColumn + 1").data) [])) demoData.columns = ["NotARealColumn"]
    ∧ evaluate_formula "NotARealColumn + 1" demoData []
        = (none, some (FormulaError.columnsNotFound ["NotARealColumn"])) := by
  have ha : actualMissing (findIdentsRun (convert_short_names_to_technical
      (pyStrip ("NotARealColumn + 1").data) [])) demoData.columns = ["NotARealColumn"] := by
    decide
  have h := (C5_unresolved_columns_rejected "NotARealColumn + 1" demoData []
    (by decide) (by decide)).2.1 (by decide)
  rw [ha] at h
  exact ⟨ha, h⟩

/-- C6: the composer signals the informational nothing-to-render prompt
exactly when neither axis has a selected literal column or a
successfully evaluated formula series, and emits a chart whenever some
axis contributes. -/
theorem C6_nothing_to_render_iff_no_series :
    ∀ (toShort : String → String) (d : Dataset) (lf rf : String) (lc rc : List String)
      (lfr rfr : Option (List PVal)),
      (composeChart toShort d lf rf lc rc lfr rfr = ChartOutcome.nothingToRender
        ↔ (lc = [] ∧ lfr = none ∧ rc = [] ∧ rfr = none))
      ∧ ((has_left_data lc lfr || has_right_data rc rfr) = true →
          ∃ ts, composeChart toShort d lf rf lc rc lfr rfr = ChartOutcome.chart ts) := by
  intro toShort d lf rf lc rc lfr rfr
  constructor
  · constructor
    · intro h
      by_cases hc : (has_left_data lc lfr || has_right_data rc rfr) = true
      · rw [composeChart, if_pos hc] at h
        exact ChartOutcome.noConfusion h
      · have hc2 : (has_left_data lc lfr || has_right_data rc rfr) = false :=
          Bool.not_eq_true _ |>.mp hc
        rcases Bool.or_eq_false_iff.mp hc2 with ⟨hl, hr⟩
        rcases Bool.or_eq_false_iff.mp hl with ⟨hl1, hl2⟩
        rcases Bool.or_eq_false_iff.mp hr with ⟨hr1, hr2⟩
        exact ⟨List.isEmpty_iff.mp (by simpa using hl1),
          Option.not_isSome_iff_eq_none.mp (by simp [hl2]),
          List.isEmpty_iff.mp (by simpa using hr1),
          Option.not_isSome_iff_eq_none.mp (by simp [hr2])⟩
    · rintro ⟨h1, h2, h3, h4⟩
      subst h1; subst h2; subst h3; subst h4
      rfl
  · intro hc
    rw [composeChart, if_pos hc]
    exact ⟨_, rfl⟩

/-- C6 witness: with no selections and no formula series on either axis
the composer returns the nothing-to-render prompt; selecting one column
makes it emit a chart — both obtained from the theorem. -/
theorem C6_nothing_to_render_witness :
    composeChart (fun c => c) demoData "" "" [] [] none none = ChartOutcome.nothingToRender
    ∧ ∃ ts, composeChart (fun c => c) demoData "" "" ["MM_Long"] [] none none
        = ChartOutcome.chart ts := by
  constructor
  · exact (C6_nothing_to_render_iff_no_series (fun c => c) demoData "" "" [] [] none none).1.mpr
      ⟨rfl, rfl, rfl, rfl⟩
  · exact (C6_nothing_to_render_iff_no_series (fun c => c) demoData "" "" ["MM_Long"] [] none
      none).2 (by decide)

/-- C7 counterexample: with the user-selected range 2023-01-01 to
2023-06-30 and positioning report dates 2023-01-03 and 2023-06-27, the
pinned x-axis range is the positioning data's extremes, not the selected
range, while the filtered price series keeps the 2023-01-02 row, which
lies outside those extremes — so the window and the pin are two
different ranges, contradicting the claim that both equal the same
positioning range. -/
theorem C7_cex_window_range_mismatch :
    pinnedRange demoCotDates = (some 20230103, some 20230627)
    ∧ decide (pinnedRange demoCotDates = (some demoSel.1, some demoSel.2)) = false
    ∧ ({ commodity := "GOLD", date := 20230102, close := 101 } : DbPriceRow)
        ∈ price_data_filtered demoSel demoPrices
    ∧ decide ((20230103 : Int) ≤ 20230102) = false := by
  refine ⟨by decide, by decide, by decide, by decide⟩

/-- C7 amended: the displayed price series contains exactly the price
rows whose dates fall in the user-selected range, inclusive, by value
comparison; the price chart's x axis is pinned to the filtered
positioning data's own minimum and maximum dates, which are attained
positioning dates bounding all of them, and lie within the selected
range whenever the positioning rows do (coinciding with it only when
positioning rows sit on its endpoints). -/
theorem C7_window_by_selection_pin_by_data :
    ∀ (sel : Int × Int) (prices : List DbPriceRow) (cotDates : List Int) (lo hi : Int),
      (∀ r, r ∈ price_data_filtered sel prices
          ↔ (r ∈ prices ∧ sel.1 ≤ r.date ∧ r.date ≤ sel.2))
      ∧ (listMinI cotDates = some lo → lo ∈ cotDates ∧ ∀ x ∈ cotDates, lo ≤ x)
      ∧ (listMaxI cotDates = some hi → hi ∈ cotDates ∧ ∀ x ∈ cotDates, x ≤ hi)
      ∧ ((∀ x ∈ cotDates, sel.1 ≤ x ∧ x ≤ sel.2) →
          listMinI cotDates = some lo → listMaxI cotDates = some hi →
          sel.1 ≤ lo ∧ hi ≤ sel.2) := by
  intro sel prices cotDates lo hi
  have Hmin : listMinI cotDates = some lo → lo ∈ cotDates ∧ ∀ x ∈ cotDates, lo ≤ x := by
    intro hmin
    cases cotDates with
    | nil => exact Option.noConfusion hmin
    | cons x xs =>
      have hv : xs.foldl min x = lo := by
        simpa [listMinI] using hmin
      constructor
      · rcases foldl_min_mem xs x with h | h
        · rw [← hv, h]
          exact List.mem_cons_self x xs
        · rw [← hv]
          exact List.mem_cons_of_mem x h
      · intro y hy
        rw [← hv]
        cases hy with
        | head => exact foldl_min_le_init xs x
        | tail _ hy2 => exact foldl_min_le_mem xs x y hy2
  have Hmax : listMaxI cotDates = some hi → hi ∈ cotDates ∧ ∀ x ∈ cotDates, x ≤ hi := by
    intro hmax
    cases cotDates with
    | nil => exact Option.noConfusion hmax
    | cons x xs =>
      have hv : xs.foldl max x = hi := by
        simpa [listMaxI] using hmax
      constructor
      · rcases foldl_max_mem xs x with h | h
        · rw [← hv, h]
          exact List.mem_cons_self x xs
        · rw [← hv]
          exact List.mem_cons_of_mem x h
      · intro y hy
        rw [← hv]
        cases hy with
        | head => exact foldl_max_ge_init xs x
        | tail _ hy2 => exact foldl_max_ge_mem xs x y hy2
  refine ⟨?_, Hmin, Hmax, ?_⟩
  · intro r
    constructor
    · intro h
      have h2 := List.mem_filter.mp h
      refine ⟨h2.1, ?_, ?_⟩
      · have := h2.2
        simp only [Bool.and_eq_true, decide_eq_true_eq] at this
        exact this.1
      · have := h2.2
        simp only [Bool.and_eq_true, decide_eq_true_eq] at this
        exact this.2
    · intro h
      exact List.mem_filter.mpr ⟨h.1, by simp [h.2.1, h.2.2]⟩
  · intro hall hmin hmax
    obtain ⟨hlomem, _⟩ := Hmin hmin
    obtain ⟨hhimem, _⟩ := Hmax hmax
    exact ⟨(hall lo hlomem).1, (hall hi hhimem).2⟩

/-- C7 witness: the amended theorem instantiated on the worked example —
a kept price row of the selected window, the pin endpoints attained and
bounding the positioning dates, and the pin lying inside the selected
range. -/
theorem C7_window_by_selection_pin_by_data_witness :
    (({ commodity := "GOLD", date := 20230215, close := 102 } : DbPriceRow)
        ∈ price_data_filtered demoSel demoPrices)
    ∧ ((20230103 : Int) ∈ demoCotDates ∧ ∀ x ∈ demoCotDates, (20230103 : Int) ≤ x)
    ∧ (demoSel.1 ≤ 20230103 ∧ (20230627 : Int) ≤ demoSel.2) := by
  have H := C7_window_by_selection_pin_by_data demoSel demoPrices demoCotDates 20230103 20230627
  refine ⟨?_, H.2.1 (by decide), H.2.2.2 (by decide) (by decide) (by decide)⟩
  exact (H.1 _).mpr ⟨by decide, by decide, by decide⟩

/-- A displayed axis error message always comes from that axis's own
formula error, carrying its axis prefix. -/
theorem shownError_some (p : String) (err : Option FormulaError) (c : ChartOutcome) (msg : String) :
    shownError p err c = some msg → ∃ e, err = some e ∧ msg = p ++ renderFormulaError e := by
  intro h
  cases c with
  | nothingToRender => exact Option.noConfusion h
  | chart ts =>
    simp only [shownError, Option.map_eq_some'] at h
    obtain ⟨e, he, hm⟩ := h
    exact ⟨e, he, hm.symm⟩

/-- C9: a formula error on one axis never changes what the other axis
renders nor the price panel — the right-axis traces and the right error
display are the same whatever the left formula text is (and
symmetrically), and the price panel is the same whatever either formula
is; a displayed axis message always stems from that axis's own formula
error, prefixed with its axis name. -/
theorem C9_formula_errors_isolated_per_axis :
    ∀ (toShort : String → String) (d : Dataset) (m : List (String × String))
      (lf lf2 rf rf2 : String) (lc rc : List String)
      (mapping : Option String) (db : PriceDb) (name : String) (fetched : List FetchedRow)
      (sel : Int × Int) (cotDates : List Int),
      tracesOn Axis.right
          (renderPage toShort d m lf rf lc rc mapping db name fetched sel cotDates).chartOut
        = tracesOn Axis.right
          (renderPage toShort d m lf2 rf lc rc mapping db name fetched sel cotDates).chartOut
      ∧ tracesOn Axis.left
          (renderPage toShort d m lf rf lc rc mapping db name fetched sel cotDates).chartOut
        = tracesOn Axis.left
          (renderPage toShort d m lf rf2 lc rc mapping db name fetched sel cotDates).chartOut
      ∧ (renderPage toShort d m lf rf lc rc mapping db name fetched sel cotDates).panel
        = (renderPage toShort d m lf2 rf2 lc rc mapping db name fetched sel cotDates).panel
      ∧ (∀ msg,
          (renderPage toShort d m lf rf lc rc mapping db name fetched sel cotDates).leftErrorShown
            = some msg →
          ∃ e2, (formulaOutcome lf d m).2 = some e2
            ∧ msg = "Left axis formula error: " ++ renderFormulaError e2)
      ∧ (∀ msg,
          (renderPage toShort d m lf rf lc rc mapping db name fetched sel cotDates).rightErrorShown
            = some msg →
          ∃ e2, (formulaOutcome rf d m).2 = some e2
            ∧ msg = "Right axis formula error: " ++ renderFormulaError e2) := by
  intro toShort d m lf lf2 rf rf2 lc rc mapping db name fetched sel cotDates
  refine ⟨?_, ?_, rfl, ?_, ?_⟩
  · simp only [renderPage]
    rw [tracesOn_right_composeChart, tracesOn_right_composeChart]
  · simp only [renderPage]
    rw [tracesOn_left_composeChart, tracesOn_left_composeChart]
  · intro msg h
    simp only [renderPage] at h
    exact shownError_some _ _ _ _ h
  · intro msg h
    simp only [renderPage] at h
    exact shownError_some _ _ _ _ h

/-- C9 witness: an invalid-characters error on the left formula while a
right-axis column is selected — the displayed left message is applied
through the theorem, exhibiting the error as scoped to its own axis. -/
theorem C9_formula_errors_isolated_witness :
    ∃ e2, (formulaOutcome "%%" demoData []).2 = some e2
      ∧ "Left axis formula error: Invalid characters in formula"
          = "Left axis formula error: " ++ renderFormulaError e2 := by
  exact (C9_formula_errors_isolated_per_axis (fun c => c) demoData [] "%%" "" "" ""
      [] ["MM_Long"] none { commodity_prices := none } "GOLD" [] demoSel demoCotDates).2.2.2.1
    "Left axis formula error: Invalid characters in formula" (by decide)
